import Mathlib

/-!
Verification development for the GPSTrack repository.

The embedding below translates the C++ classes `TrackSense` / `GPSTrack` /
`GPSSim` (files TrackSense.hpp, GPSTrack.hpp, GPSSim.hpp) into Lean.
Modelling conventions:

* `std::string` values are lists of characters (`Str`); a C++ byte is the
  character's code point reduced mod 256.
* `double` arithmetic is modelled over `ℚ` with exact arithmetic; the
  stream/`to_string` fixed-point output of a double with precision `p` is
  modelled by rounding to the nearest multiple of `10 ^ (-p)` (C++ converts
  the exact binary value of the double; for the inputs considered the two
  agree, and exact decimal ties do not arise).
* a thrown C++ exception is an `Except.error` / explicit error component;
  an out-of-bounds `std::vector::operator[]` access (undefined behaviour)
  is modelled by `Option.none`.
-/

/-- C++ `std::string` values are modelled as lists of characters. -/
abbrev Str := List Char

/-- The decimal digit character for a value `d < 10` (clamped at `9`). -/
def digitChar (d : Nat) : Char :=
  match d with
  | 0 => '0' | 1 => '1' | 2 => '2' | 3 => '3' | 4 => '4'
  | 5 => '5' | 6 => '6' | 7 => '7' | 8 => '8' | _ => '9'

/-- Numeric value of a decimal digit character. -/
def dval (c : Char) : Nat := c.toNat - 48

/-- Test for a decimal digit character (code points 48–57). -/
def isDigitB (c : Char) : Bool := decide (48 ≤ c.toNat ∧ c.toNat ≤ 57)

/-- Little-endian decimal digits of `n`, with explicit structural fuel
(`n` itself is always enough fuel since `n < 10 ^ n + 1`). -/
def natDigitsLE : Nat → Nat → List Nat
  | 0, _ => []
  | fuel + 1, n => if n = 0 then [] else n % 10 :: natDigitsLE fuel (n / 10)

/-- Decimal digit characters of `n`, most significant first (the text a C++
stream produces for a non-negative integer). -/
def natDigits (n : Nat) : Str :=
  if n = 0 then ['0'] else ((natDigitsLE n n).map digitChar).reverse

/-- Decimal text of an integer as a C++ stream prints it. -/
def intDigits (z : Int) : Str :=
  (if z < 0 then ['-'] else []) ++ natDigits z.natAbs

/-- Left-pad with `'0'` to width `w`: the effect of `setw(w)` with
`setfill('0')` on a numeric insertion. -/
def padLeftZeros (w : Nat) (l : Str) : Str :=
  List.replicate (w - l.length) '0' ++ l

/-- Big-endian numeric value of a digit string. -/
def digitsVal (l : Str) : Nat := l.foldl (fun a c => 10 * a + dval c) 0

/-- Fixed-point decimal text of a rational with `prec` fractional digits:
the model of C++ stream output under `std::fixed` / `setprecision(prec)`,
and of `std::to_string` for `prec = 6`.  The value is rounded to the
nearest multiple of `10 ^ (-prec)`. -/
def fmtFixed (prec : Nat) (q : ℚ) : Str :=
  let n : ℤ := round (q * (10 : ℚ) ^ prec)
  let a : Nat := n.natAbs
  let ip := a / 10 ^ prec
  let fp := a % 10 ^ prec
  (if n < 0 then ['-'] else []) ++ natDigits ip ++
    (if prec = 0 then [] else '.' :: padLeftZeros prec (natDigits fp))

/-- Parse a maximal leading run of decimal digits: returns the value read
(most significant digit first), the number of digits consumed, and the
rest of the input. -/
def parseDigits : Str → Nat × Nat × Str
  | [] => (0, 0, [])
  | c :: cs =>
    if isDigitB c then
      let r := parseDigits cs
      (dval c * 10 ^ r.2.1 + r.1, r.2.1 + 1, r.2.2)
    else (0, 0, c :: cs)

/-- Unsigned part of the `std::stod` model: integer digits, optional
point, fraction digits; fails (`none`) when no digit is read. -/
def stodCore (r : Str) : Option ℚ :=
  let r1 := parseDigits r
  match r1.2.2 with
  | [] => if r1.2.1 = 0 then none else some ((r1.1 : ℚ))
  | c :: r2 =>
    if c = '.' then
      let rf := parseDigits r2
      if r1.2.1 = 0 ∧ rf.2.1 = 0 then none
      else some ((r1.1 : ℚ) + (rf.1 : ℚ) / 10 ^ rf.2.1)
    else if r1.2.1 = 0 then none else some ((r1.1 : ℚ))

/-- Model of `std::stod` restricted to plain decimal numerals
(optional sign, integer digits, optional fraction); `none` models the
`std::invalid_argument` exception raised when no numeral can be read.
Exponent and hexadecimal forms never occur in this program's inputs and
are not modelled; `ℚ` is unbounded so `std::out_of_range` cannot arise. -/
def stodQ : Str → Option ℚ :=
  fun s =>
    match s with
    | [] => none
    | c :: t =>
      if c = '-' then (stodCore t).map (fun v => -v)
      else if c = '+' then stodCore t
      else stodCore (c :: t)

/-- All comma-separated fields of a string, empty fields included
(`splitAllChars sep s` has one entry per separator-delimited position). -/
def splitAllChars (sep : Char) : Str → List Str
  | [] => [[]]
  | c :: cs =>
    if c = sep then [] :: splitAllChars sep cs
    else
      match splitAllChars sep cs with
      | [] => [[c]]
      | t :: ts => (c :: t) :: ts

/-- The sequence of tokens successive `std::getline(ss, tok, sep)` calls
produce on a `stringstream` holding `s`: all delimited fields, except that
a final empty field (empty input, or input ending in the separator) is
never produced because the last `getline` call fails at end-of-stream. -/
def getlineTokens (sep : Char) (s : Str) : List Str :=
  let ts := splitAllChars sep s
  if ts.getLast? = some [] then ts.dropLast else ts

namespace TrackSense

/-- `TrackSense::split` (TrackSense.hpp lines 86–112): runs `getline` per
separator and pushes only the non-empty tokens. -/
def split (string_de_entrada : Str) (separador : Char) : List Str :=
  (getlineTokens separador string_de_entrada).filter (fun t => decide (t ≠ []))

/-- `TrackSense::converter_lat_long` (TrackSense.hpp lines 119–133).
Empty numeric text returns `0`; otherwise `std::stod` is called with no
surrounding handler, so a parse failure is an exception
(`Except.error`) that propagates out of the function. -/
def converter_lat_long (valor hemisf : Str) : Except String ℚ :=
  if valor = [] then .ok 0
  else
    match stodQ valor with
    | none => .error "std::invalid_argument"
    | some valor_cru =>
      let graus : ℚ := (⌊valor_cru / 100⌋ : ℤ)
      let minutos : ℚ := valor_cru - graus * 100
      .ok ((graus + minutos / 60) *
        (if hemisf = ['S'] ∨ hemisf = ['W'] then -1 else 1))

/-- `TrackSense::GPSData` (TrackSense.hpp lines 56–64). -/
structure GPSData where
  time_utc : Str
  lat : ℚ
  lon : ℚ
  vel : ℚ
  alt : ℚ
  sat : ℤ
  hdop : ℚ

/-- State of a `std::ostringstream`: accumulated output plus the current
precision (default 6).  `std::fixed` is set before every floating-point
insertion in this program, so the stream is modelled in fixed mode. -/
structure OSS where
  out : Str
  prec : Nat

/-- Insertion of a string (or single character). -/
def OSS.putStr (o : OSS) (s : Str) : OSS := { o with out := o.out ++ s }

/-- Effect of `std::setprecision (p)`. -/
def OSS.setPrec (o : OSS) (p : Nat) : OSS := { o with prec := p }

/-- Insertion of a `double` under `std::fixed` and the current precision. -/
def OSS.putRat (o : OSS) (q : ℚ) : OSS :=
  { o with out := o.out ++ fmtFixed o.prec q }

/-- Insertion of an `int`. -/
def OSS.putInt (o : OSS) (z : ℤ) : OSS := { o with out := o.out ++ intDigits z }

/-- `TrackSense::formatar_csv` (TrackSense.hpp lines 138–154): the exact
insertion sequence of the source.  `setprecision(2)` is applied before
`vel` and is never reset, so it also governs `alt` and `hdop`. -/
def formatar_csv (data : GPSData) : Str :=
  (OSS.mk [] 6
    |>.putStr data.time_utc |>.putStr [',']
    |>.setPrec 6
    |>.putRat data.lat |>.putStr [',']
    |>.putRat data.lon |>.putStr [',']
    |>.setPrec 2
    |>.putRat data.vel |>.putStr [',']
    |>.putRat data.alt |>.putStr [',']
    |>.putInt data.sat |>.putStr [',']
    |>.putRat data.hdop).out

/-- `TrackSense::_parser_rmc` (TrackSense.hpp lines 243–258).  The result
is the final state of the `GPSData` record together with the exception,
if any, that escapes (from `std::stod` / `converter_lat_long`); field
assignments made before the exception persist, as in the C++ original. -/
def parser_rmc (frase : Str) (data : GPSData) : GPSData × Option String :=
  let campos_de_infos := split frase ','
  if campos_de_infos.length < 8 then (data, none)
  else
    let data1 := { data with time_utc := campos_de_infos.getD 1 [] }
    match converter_lat_long (campos_de_infos.getD 3 []) (campos_de_infos.getD 4 []) with
    | .error e => (data1, some e)
    | .ok la =>
      let data2 := { data1 with lat := la }
      match converter_lat_long (campos_de_infos.getD 5 []) (campos_de_infos.getD 6 []) with
      | .error e => (data2, some e)
      | .ok lo =>
        let data3 := { data2 with lon := lo }
        match stodQ (campos_de_infos.getD 7 []) with
        | none => (data3, some "std::invalid_argument")
        | some v => ({ data3 with vel := v * (514 / 1000) }, none)

/-- Model of `std::stoi` restricted to plain decimal numerals, in the same
way as `stodQ`. -/
def stoiZ (s : Str) : Option ℤ :=
  let p : Bool × Str :=
    match s with
    | c :: t => if c = '-' then (true, t) else if c = '+' then (false, t) else (false, s)
    | [] => (false, [])
  let r := parseDigits p.2
  if r.2.1 = 0 then none
  else some (if p.1 then -(r.1 : ℤ) else (r.1 : ℤ))

/-- `TrackSense::_parser_gga` (TrackSense.hpp lines 265–282), modelled like
`parser_rmc`. -/
def parser_gga (frase : Str) (data : GPSData) : GPSData × Option String :=
  let campos_de_infos := split frase ','
  if campos_de_infos.length < 10 then (data, none)
  else
    let data1 := { data with time_utc := campos_de_infos.getD 1 [] }
    match converter_lat_long (campos_de_infos.getD 2 []) (campos_de_infos.getD 3 []) with
    | .error e => (data1, some e)
    | .ok la =>
      let data2 := { data1 with lat := la }
      match converter_lat_long (campos_de_infos.getD 4 []) (campos_de_infos.getD 5 []) with
      | .error e => (data2, some e)
      | .ok lo =>
        let data3 := { data2 with lon := lo }
        match stoiZ (campos_de_infos.getD 7 []) with
        | none => (data3, some "std::invalid_argument")
        | some s =>
          let data4 := { data3 with sat := s }
          match stodQ (campos_de_infos.getD 8 []) with
          | none => (data4, some "std::invalid_argument")
          | some h =>
            let data5 := { data4 with hdop := h }
            match stodQ (campos_de_infos.getD 9 []) with
            | none => (data5, some "std::invalid_argument")
            | some a => ({ data5 with alt := a }, none)

/-- Lifecycle state of the component: the `_is_exec` atomic flag together
with the number of background tasks ever spawned and still running. -/
structure Worker where
  is_exec : Bool
  tasks : Nat

/-- `TrackSense::init` (TrackSense.hpp lines 355–363), and identically
`GPSSim::init` (lines 817–833): `_is_exec.exchange(true)` sets the flag
and returns its previous value; only when the previous value was `false`
is a worker thread spawned. -/
def init (s : Worker) : Worker :=
  if s.is_exec then { s with is_exec := true }
  else { is_exec := true, tasks := s.tasks + 1 }

end TrackSense

namespace GPSTrack

/-- `GPSTrack::split` (GPSTrack.hpp lines 242–268): same body as
`TrackSense::split`, with `','` as default separator. -/
def split (string_de_entrada : Str) (separador : Char := ',') : List Str :=
  (getlineTokens separador string_de_entrada).filter (fun t => decide (t ≠ []))

/-- `GPSTrack::GPSData::converter_lat_lon` (GPSTrack.hpp lines 122–148).
Returns the produced string (empty input returns the empty string; a
successful path returns `std::to_string(coordenada)`, i.e. six fixed
decimals) together with a flag recording whether the
`std::invalid_argument` diagnostic was printed; in that catch branch
`valor_cru` keeps its initial value `0` and execution continues.
(`ℚ` has no negative zero, so the `"-0.000000"` a C++ double can print
when `coordenada` is a negative zero is rendered `"0.000000"` here.) -/
def converter_lat_lon (string_numerica string_hemisf : Str) : Str × Bool :=
  if string_numerica = [] then ([], false)
  else
    let p : ℚ × Bool :=
      match stodQ string_numerica with
      | some v => (v, false)
      | none => (0, true)
    let valor_cru := p.1
    let graus : ℚ := (⌊valor_cru / 100⌋ : ℤ)
    let minutos : ℚ := valor_cru - graus * 100
    let coordenada := (graus + minutos / 60) *
      (if string_hemisf = ['S'] ∨ string_hemisf = ['W'] then -1 else 1)
    (fmtFixed 6 coordenada, p.2)

/-- `GPSTrack::GPSData::parsing` (GPSTrack.hpp lines 163–209).  `data` is
the stored `data` vector; the result is its final contents together with
`some` of the C++ return value, or `none` when a `data_splitted[idx]`
access is out of bounds (`std::vector::operator[]` undefined behaviour).
`data.clear()` runs before anything else, and there is no length check. -/
def parsing (code_pattern : ℤ) (data_splitted : List Str) (data : List Str) :
    List Str × Option Bool :=
  let d0 : List Str := []
  if code_pattern = 0 then
    match data_splitted.get? 1 with
    | none => (d0, none)
    | some f1 =>
      let d1 := d0 ++ [f1]
      match data_splitted.get? 2, data_splitted.get? 3 with
      | some f2, some f3 =>
        let d2 := d1 ++ [(converter_lat_lon f2 f3).1]
        match data_splitted.get? 4, data_splitted.get? 5 with
        | some f4, some f5 =>
          let d3 := d2 ++ [(converter_lat_lon f4 f5).1]
          match data_splitted.get? 9 with
          | none => (d3, none)
          | some f9 => (d3 ++ [f9], some true)
        | _, _ => (d2, none)
      | _, _ => (d1, none)
  else (d0, some false)

/-- `GPSTrack::GPSData::to_csv` (GPSTrack.hpp lines 215–232): joins
`data[0] … data[3]` with commas and appends a newline; `none` when the
vector has fewer than four entries (out-of-bounds access). -/
def to_csv (data : List Str) : Option Str :=
  match data.get? 0, data.get? 1, data.get? 2, data.get? 3 with
  | some f0, some f1, some f2, some f3 =>
    some (f0 ++ ',' :: f1 ++ ',' :: f2 ++ ',' :: f3 ++ ['\n'])
  | _, _, _, _ => none

/-- `GPSTrack::send` (GPSTrack.hpp lines 412–429): one `::sendto` call
carrying the whole message, i.e. exactly one datagram whose payload is
the message. -/
def send (mensagem : Str) : List Str := [mensagem]

/-- One outcome of the underlying `read(fd, &c, 1)` call: a byte, zero
bytes available, or a negative return value. -/
inductive ReadEv where
  | byte (c : Char)
  | eof
  | err
deriving DecidableEq

/-- Worker body of `GPSTrack::read_serial` (GPSTrack.hpp lines 373–405):
accumulate bytes until a line feed or end of data, skipping carriage
returns; a negative read throws `std::runtime_error` (`Except.error`). -/
def readSerialGo (acc : Str) : List ReadEv → Except String (Str × List ReadEv)
  | [] => .ok (acc.reverse, [])
  | e :: rest =>
    match e with
    | .byte c =>
      if c = '\n' then .ok (acc.reverse, rest)
      else if c = '\r' then readSerialGo acc rest
      else readSerialGo (c :: acc) rest
    | .eof => .ok (acc.reverse, rest)
    | .err => .error "std::runtime_error: Erro na leitura"

/-- `GPSTrack::read_serial`, reading from a modelled stream of `read`
outcomes (an exhausted model stream behaves like end-of-data). -/
def read_serial (evs : List ReadEv) : Except String (Str × List ReadEv) :=
  readSerialGo [] evs

/-- Substring containment test (`std::string::find(pat) != npos`). -/
def isPreOf : Str → Str → Bool
  | [], _ => true
  | _ :: _, [] => false
  | c :: p, d :: s => c = d && isPreOf p s

/-- Substring containment test, continued. -/
def hasSub (pat : Str) : Str → Bool
  | [] => isPreOf pat []
  | d :: s => isPreOf pat (d :: s) || hasSub pat s

/-- One iteration of `GPSTrack::loop` (GPSTrack.hpp lines 442–488): read a
message, and when it mentions `"GGA"` run `parsing` and send the CSV.
There is no try/catch anywhere in `loop`, so an error from `read_serial`
(or an out-of-bounds access, `none`-mapped to an error here) leaves the
iteration — and hence the thread body — as an exception. -/
def loop_iter (evs : List ReadEv) (st : List Str) :
    Except String (List Str × List Str × List ReadEv) :=
  match read_serial evs with
  | .error e => .error e
  | .ok (mensagem, rest) =>
    if mensagem = [] then .ok (st, [], rest)
    else if hasSub ['G', 'G', 'A'] mensagem then
      match parsing 0 (split mensagem) st with
      | (st2, none) => .error "undefined behaviour: vector index out of range"
      | (st2, some _) =>
        match to_csv st2 with
        | none => .error "undefined behaviour: vector index out of range"
        | some line => .ok (st2, send line, rest)
    else .ok (st, [], rest)

/-- `GPSTrack::loop`, driven by fuel (the `_is_exec` flag staying up for
at most `fuel` iterations) over the modelled serial stream; accumulates
every datagram sent.  An exception from an iteration propagates out of
the whole loop: nothing catches it before the thread boundary. -/
def loop (fuel : Nat) (evs : List ReadEv) (st : List Str) (sent : List Str) :
    Except String (List Str × List Str) :=
  match fuel with
  | 0 => .ok (st, sent)
  | f + 1 =>
    if evs = [] then .ok (st, sent)
    else
      match loop_iter evs st with
      | .error e => .error e
      | .ok (st2, out, rest) => loop f rest st2 (sent ++ out)

end GPSTrack

namespace GPSSim

/-- Uppercase hexadecimal digit character for `d < 16` (clamped). -/
def hexDigitChar (d : Nat) : Char :=
  match d with
  | 0 => '0' | 1 => '1' | 2 => '2' | 3 => '3' | 4 => '4'
  | 5 => '5' | 6 => '6' | 7 => '7' | 8 => '8' | 9 => '9'
  | 10 => 'A' | 11 => 'B' | 12 => 'C' | 13 => 'D' | 14 => 'E' | _ => 'F'

/-- Little-endian hexadecimal digits with structural fuel. -/
def hexDigitsLE : Nat → Nat → List Nat
  | 0, _ => []
  | fuel + 1, n => if n = 0 then [] else n % 16 :: hexDigitsLE fuel (n / 16)

/-- Uppercase hexadecimal text of `n`, most significant digit first:
stream output under `std::uppercase << std::hex`. -/
def hexUpper (n : Nat) : Str :=
  if n = 0 then ['0'] else ((hexDigitsLE n n).map hexDigitChar).reverse

/-- The XOR parity accumulated over the bytes of the sentence body
(`paridade ^= (uint8_t)caract`). -/
def checksum (corpo_frase : Str) : Nat :=
  corpo_frase.foldl (fun p c => p ^^^ c.toNat % 256) 0

/-- `GPSSim::finalizar_corpo_de_frase` (TrackSense.hpp lines 552–577) and
the identical `GPSSim::build_nmea_string` (lines 1054–1079): `$`, body,
`*`, the parity under `uppercase << hex << setw(2) << setfill('0')`, and
CR LF. -/
def finalizar_corpo_de_frase (corpo_frase : Str) : Str :=
  '$' :: corpo_frase ++ '*' :: padLeftZeros 2 (hexUpper (checksum corpo_frase)) ++ ['\r', '\n']

/-- `GPSSim::converter_graus_para_nmea` (TrackSense.hpp lines 497–545):
degrees zero-padded to 2 (latitude) or 3 (longitude) digits, minutes in
fixed precision 4 padded to width 7, hemisphere by sign. -/
def converter_graus_para_nmea (graus_decimais : ℚ) (is_lat : Bool) : Str × Char :=
  let hemisf : Char :=
    if is_lat then (if graus_decimais ≥ 0 then 'N' else 'S')
    else (if graus_decimais ≥ 0 then 'E' else 'W')
  let valor_abs : ℚ := |graus_decimais|
  let graus : Nat := (⌊valor_abs⌋).toNat
  let minQ : ℚ := (valor_abs - (graus : ℚ)) * 60
  let ddmm := padLeftZeros (if is_lat then 2 else 3) (natDigits graus) ++
    padLeftZeros 7 (fmtFixed 4 minQ)
  (ddmm, hemisf)

/-- The simulator's mutable position/trajectory state (TrackSense.hpp
lines 459–468).  `started` records whether the `_loop` body has executed
its first two statements (`_lat_sim = _lat; _lon_sim = _lon`). -/
structure SimState where
  mov_circ : Bool
  raio : ℚ
  periodo_circ : ℚ
  lat : ℚ
  lon : ℚ
  alt : ℚ
  lat_sim : ℚ
  lon_sim : ℚ
  started : Bool

/-- The state established by the `GPSSim` constructor (TrackSense.hpp
lines 753–793): `_mov_circ = false`, `_raio = 20`, `_periodo_circ = 20`,
simulated position zero-initialised. -/
def initialState (lat0 lon0 alt0 : ℚ) : SimState :=
  { mov_circ := false, raio := 20, periodo_circ := 20,
    lat := lat0, lon := lon0, alt := alt0,
    lat_sim := 0, lon_sim := 0, started := false }

/-- `GPSSim::config_traj` (TrackSense.hpp lines 861–873): returns
immediately when `_mov_circ` is false; only otherwise does it store the
radius and period and set `_mov_circ = true`. -/
def config_traj (raio_metros periodo_segundos : ℚ) (s : SimState) : SimState :=
  if !s.mov_circ then s
  else { s with raio := raio_metros, periodo_circ := periodo_segundos, mov_circ := true }

/-- C++ `fmod(x, 1.0)` (truncation toward zero). -/
def fmod1 (q : ℚ) : ℚ := if q ≥ 0 then q - (⌊q⌋ : ℤ) else q - (⌈q⌉ : ℤ)

/-- `GPSSim::_update_position` (TrackSense.hpp lines 691–706),
parametrised by the library functions `std::sin`, `std::cos`, the
constant `M_PI` and the elapsed wall-clock time `t`: a no-op unless
`_mov_circ` is set, otherwise displaces the base position around the
circle. -/
def update_position (sinF cosF : ℚ → ℚ) (piQ t : ℚ) (s : SimState) : SimState :=
  if !s.mov_circ then s
  else
    let angulo := 2 * piQ * fmod1 (t / s.periodo_circ)
    let delta_lat := s.raio * sinF angulo / 111320
    let delta_lon := s.raio * cosF angulo / (111320 * cosF (s.lat * piQ / 180))
    { s with lat_sim := s.lat + delta_lat, lon_sim := s.lon + delta_lon }

/-- The first two statements of `GPSSim::_loop` (TrackSense.hpp lines
714–716): pin the simulated position to the base position. -/
def startLoop (s : SimState) : SimState :=
  { s with lat_sim := s.lat, lon_sim := s.lon, started := true }

/-- All states the simulator can reach: a constructed state, evolved by
any interleaving of `config_traj` calls, loop starts, and per-tick
position updates (for every possible trig library and elapsed time). -/
inductive Reachable : SimState → Prop
  | construct (lat0 lon0 alt0 : ℚ) : Reachable (initialState lat0 lon0 alt0)
  | traj (r p : ℚ) {s : SimState} : Reachable s → Reachable (config_traj r p s)
  | start {s : SimState} : Reachable s → Reachable (startLoop s)
  | tick (sinF cosF : ℚ → ℚ) (piQ t : ℚ) {s : SimState} :
      Reachable s → Reachable (update_position sinF cosF piQ t s)

end GPSSim

/-- Serialization of a fix record exactly as the spec's words state it
(spec §4.5): comma-joined `time_utc,lat,lon,speed,altitude,satellites,
hdop` with 6 fixed decimals for lat/lon, 2 for speed and 1 for altitude
and hdop.  Written only for refinement comparison against the source
function `TrackSense.formatar_csv`. -/
def formatar_csv_spec (data : TrackSense.GPSData) : Str :=
  data.time_utc ++ ',' :: fmtFixed 6 data.lat ++ ',' :: fmtFixed 6 data.lon ++
    ',' :: fmtFixed 2 data.vel ++ ',' :: fmtFixed 1 data.alt ++
    ',' :: intDigits data.sat ++ ',' :: fmtFixed 1 data.hdop

/-- The sixteen uppercase hexadecimal digit characters. -/
def upperHexDigits : Str :=
  ['0', '1', '2', '3', '4', '5', '6', '7', '8', '9', 'A', 'B', 'C', 'D', 'E', 'F']

/-- Little-endian value of a list of decimal digits (proof support). -/
def valLE : List Nat → Nat
  | [] => 0
  | d :: ds => d + 10 * valLE ds

/-- Proof-support shorthand: the whole-degrees part the coordinate
encoder computes (`static_cast<int>(std::floor(std::fabs(x)))`). -/
def encG (x : ℚ) : Nat := (⌊|x|⌋).toNat

/-- Proof-support shorthand: the exact minutes value the encoder
formats. -/
def encMin (x : ℚ) : ℚ := (|x| - (encG x : ℚ)) * 60

/-- Proof-support shorthand: the minutes value scaled by `10 ^ 4` and
rounded, as it appears in the encoder's fixed-precision-4 text. -/
def encA (x : ℚ) : Nat := (round (encMin x * (10 : ℚ) ^ 4)).natAbs

/-!
Theorems for the specification claims.
-/

/-- C1: the claim states that splitting a comma-delimited frame preserves
embedded empty fields positionally.  The code does not: both split
implementations push only non-empty tokens, so `"A,,B"` — whose raw
positions are `A` (0), the empty field (1), `B` (2) — splits into just
two elements, with `B` at index 1. -/
theorem claim_C1_split_drops_empty_fields :
    GPSTrack.split "A,,B".toList ',' = ["A".toList, "B".toList] ∧
    (GPSTrack.split "A,,B".toList ',').length = 2 ∧
    TrackSense.split "A,,B".toList ',' = ["A".toList, "B".toList] := by
  decide

/-- C3: the claim states that a negative result from the underlying read
terminates only the worker's loop, with no exception crossing the task
boundary.  In the code, `read_serial` throws `std::runtime_error` on a
negative read and neither `loop` nor the thread closure contains any
handler, so the exception escapes the entire loop body. -/
theorem claim_C3_read_error_escapes_loop :
    ∀ (fuel : Nat) (evs : List GPSTrack.ReadEv) (st sent : List Str),
      GPSTrack.loop (fuel + 1) (GPSTrack.ReadEv.err :: evs) st sent =
        .error "std::runtime_error: Erro na leitura" := by
  intro fuel evs st sent
  simp [GPSTrack.loop, GPSTrack.loop_iter, GPSTrack.read_serial, GPSTrack.readSerialGo]

/-- C4: parsing a minimum-navigation (RMC) sentence never touches the
altitude, satellite-count or HDOP fields of the record, whatever the
frame and whatever the prior record contents (merge semantics); this
holds on every execution path, including early exits and paths where a
numeric conversion throws. -/
theorem claim_C4_rmc_merge_semantics :
    ∀ (frase : Str) (data : TrackSense.GPSData),
      ((TrackSense.parser_rmc frase data).1).alt = data.alt ∧
      ((TrackSense.parser_rmc frase data).1).sat = data.sat ∧
      ((TrackSense.parser_rmc frase data).1).hdop = data.hdop := by
  intro frase data
  unfold TrackSense.parser_rmc
  dsimp only
  split
  · exact ⟨rfl, rfl, rfl⟩
  · split
    · exact ⟨rfl, rfl, rfl⟩
    · split
      · exact ⟨rfl, rfl, rfl⟩
      · split
        · exact ⟨rfl, rfl, rfl⟩
        · exact ⟨rfl, rfl, rfl⟩

/-- C5: the claim states that a frame with fewer fields than its type
requires leaves the record completely unchanged.  `GPSTrack::GPSData::
parsing` has no field-count guard: on the two-field GGA frame
`"GPGGA,123519"` it first clears the stored vector, appends field 1, and
then performs an out-of-bounds `data_splitted[2]` access (undefined
behaviour, modelled `none`) — the record is not left unchanged. -/
theorem claim_C5_short_gga_frame_not_noop :
    GPSTrack.parsing 0 (GPSTrack.split "GPGGA,123519".toList)
        ["t".toList, "la".toList, "lo".toList, "al".toList] =
      (["123519".toList], none) ∧
    ["123519".toList] ≠ ["t".toList, "la".toList, "lo".toList, "al".toList] := by
  decide

/-- C9: calling `init` twice from the idle state spawns exactly one
background task: the first call flips the atomic flag and spawns the
worker, the second observes the flag already set and returns without
touching anything. -/
theorem claim_C9_init_idempotent :
    ∀ s : TrackSense.Worker, s.is_exec = false → s.tasks = 0 →
      (TrackSense.init s).tasks = 1 ∧
      (TrackSense.init s).is_exec = true ∧
      TrackSense.init (TrackSense.init s) = TrackSense.init s := by
  intro s h1 h2
  simp [TrackSense.init, h1, h2]

/-- C9 witness: the theorem instantiated at the idle state. -/
theorem claim_C9_init_idempotent_witness :
    (TrackSense.init { is_exec := false, tasks := 0 }).tasks = 1 ∧
    (TrackSense.init (TrackSense.init { is_exec := false, tasks := 0 })).tasks = 1 := by
  have h := claim_C9_init_idempotent { is_exec := false, tasks := 0 } rfl rfl
  exact ⟨h.1, by rw [h.2.2]; exact h.1⟩

/-- C10: in every reachable simulator state the motion flag is still
false (`config_traj` returns immediately whenever the flag is false, and
nothing else can set it), every per-tick position update is the identity,
and once the loop has started the simulated position equals the base
position — it stays pinned there forever. -/
theorem claim_C10_motion_never_enabled :
    ∀ s : GPSSim.SimState, GPSSim.Reachable s →
      s.mov_circ = false ∧
      (∀ (sinF cosF : ℚ → ℚ) (piQ t : ℚ),
        GPSSim.update_position sinF cosF piQ t s = s) ∧
      (s.started = true → s.lat_sim = s.lat ∧ s.lon_sim = s.lon) := by
  intro s h
  induction h with
  | construct lat0 lon0 alt0 =>
    refine ⟨rfl, fun sinF cosF piQ t => ?_, by simp [GPSSim.initialState]⟩
    simp [GPSSim.update_position, GPSSim.initialState]
  | traj r p hr ih =>
    rw [GPSSim.config_traj, ih.1]
    exact ih
  | start hr ih =>
    refine ⟨ih.1, fun sinF cosF piQ t => ?_, fun _ => ⟨rfl, rfl⟩⟩
    simp [GPSSim.update_position, GPSSim.startLoop, ih.1]
  | tick sinF cosF piQ t hr ih =>
    rw [ih.2.1 sinF cosF piQ t]
    exact ih

/-- C10 witness: the constructed state is reachable and its motion flag
is false. -/
theorem claim_C10_motion_never_enabled_witness :
    (GPSSim.initialState 0 0 0).mov_circ = false :=
  (claim_C10_motion_never_enabled _ (GPSSim.Reachable.construct 0 0 0)).1

theorem foldl_xor_lt (l : Str) :
    ∀ p : Nat, p < 256 → l.foldl (fun p c => p ^^^ c.toNat % 256) p < 256 := by
  induction l with
  | nil => intro p hp; exact hp
  | cons c cs ih =>
    intro p hp
    refine ih _ ?_
    have h1 : p < 2 ^ 8 := hp
    have h2 : c.toNat % 256 < 2 ^ 8 := Nat.mod_lt _ (by norm_num)
    exact Nat.xor_lt_two_pow h1 h2

theorem checksum_lt_256 (b : Str) : GPSSim.checksum b < 256 :=
  foldl_xor_lt b 0 (by norm_num)

theorem hexDigitsLE_length :
    ∀ (f n k : Nat), n < 16 ^ k → (GPSSim.hexDigitsLE f n).length ≤ k := by
  intro f
  induction f with
  | zero => intro n k _; simp [GPSSim.hexDigitsLE]
  | succ f ih =>
    intro n k hk
    unfold GPSSim.hexDigitsLE
    split
    · simp
    · rename_i hn
      have hk1 : k ≠ 0 := by
        intro h0
        rw [h0, pow_zero] at hk
        omega
      have hdiv : n / 16 < 16 ^ (k - 1) := by
        rw [Nat.div_lt_iff_lt_mul (by norm_num)]
        calc n < 16 ^ k := hk
        _ = 16 ^ (k - 1) * 16 := by
          rw [← pow_succ]
          congr 1
          omega
      have := ih (n / 16) (k - 1) hdiv
      simp only [List.length_cons]
      omega

theorem hexUpper_length_le (n : Nat) (h : n < 256) : (GPSSim.hexUpper n).length ≤ 2 := by
  unfold GPSSim.hexUpper
  split
  · simp
  · rw [List.length_reverse, List.length_map]
    exact hexDigitsLE_length n n 2 h

theorem padLeftZeros_length (w : Nat) (l : Str) (h : l.length ≤ w) :
    (padLeftZeros w l).length = w := by
  simp [padLeftZeros]
  omega

theorem hexDigitChar_mem (d : Nat) : GPSSim.hexDigitChar d ∈ upperHexDigits := by
  unfold GPSSim.hexDigitChar
  split <;> decide

theorem hexUpper_mem (n : Nat) : ∀ c ∈ GPSSim.hexUpper n, c ∈ upperHexDigits := by
  intro c hc
  unfold GPSSim.hexUpper at hc
  split at hc
  · rw [List.mem_singleton] at hc
    rw [hc]; decide
  · rw [List.mem_reverse, List.mem_map] at hc
    obtain ⟨d, _, hd⟩ := hc
    rw [← hd]
    exact hexDigitChar_mem d

theorem padLeftZeros_mem (w : Nat) (l : Str) :
    ∀ c ∈ padLeftZeros w l, c = '0' ∨ c ∈ l := by
  intro c hc
  rw [padLeftZeros, List.mem_append] at hc
  rcases hc with hc | hc
  · exact Or.inl (List.eq_of_mem_replicate hc)
  · exact Or.inr hc

/-- C8: `wrap(b)` is `$` + body + `*` + the running XOR of the body's
bytes rendered as exactly two uppercase hexadecimal digits + CR LF; the
checksum text is a function of the body alone (it is computed by the
pure function `checksum`), hence deterministic. -/
theorem claim_C8_wrap_structure :
    ∀ b : Str,
      GPSSim.finalizar_corpo_de_frase b =
        '$' :: b ++ '*' ::
          padLeftZeros 2 (GPSSim.hexUpper (GPSSim.checksum b)) ++ ['\r', '\n'] ∧
      (padLeftZeros 2 (GPSSim.hexUpper (GPSSim.checksum b))).length = 2 ∧
      (∀ c ∈ padLeftZeros 2 (GPSSim.hexUpper (GPSSim.checksum b)), c ∈ upperHexDigits) := by
  intro b
  refine ⟨rfl, ?_, ?_⟩
  · exact padLeftZeros_length 2 _ (hexUpper_length_le _ (checksum_lt_256 b))
  · intro c hc
    rcases padLeftZeros_mem 2 _ c hc with h | h
    · rw [h]; decide
    · exact hexUpper_mem _ c h

/-- C2 counterexample: the claim states that numeric-parse failure of a
non-empty coordinate text substitutes 0 and never raises past the
parser; but `TrackSense::converter_lat_long` calls `std::stod` with no
handler, so the text `"abc"` raises `std::invalid_argument` out of the
decode operation. -/
theorem claim_C2_counterexample :
    TrackSense.converter_lat_long "abc".toList "N".toList =
      .error "std::invalid_argument" := by
  have h2 : stodQ ['a', 'b', 'c'] = none := by decide
  simp [TrackSense.converter_lat_long, h2]

/-- C2 amended: empty numeric text yields 0 without error in the
TrackSense variant but yields the empty string (not 0) in the GPSTrack
variant; a non-empty text that fails numeric parsing raises
`std::invalid_argument` out of `TrackSense::converter_lat_long`, while
`GPSTrack::GPSData::converter_lat_lon` catches it, emits a diagnostic
and substitutes 0 (producing the string "0.000000"). -/
theorem claim_C2_amended :
    ∀ s h : Str,
      TrackSense.converter_lat_long [] h = .ok 0 ∧
      GPSTrack.converter_lat_lon [] h = ([], false) ∧
      (s ≠ [] → stodQ s = none →
        TrackSense.converter_lat_long s h = .error "std::invalid_argument" ∧
        (h ≠ ['S'] ∧ h ≠ ['W'] →
          GPSTrack.converter_lat_lon s h = ("0.000000".toList, true))) := by
  intro s h
  refine ⟨by simp [TrackSense.converter_lat_long], by simp [GPSTrack.converter_lat_lon], ?_⟩
  intro hs hnone
  constructor
  · simp [TrackSense.converter_lat_long, hs, hnone]
  · rintro ⟨h1, h2⟩
    simp only [GPSTrack.converter_lat_lon, if_neg hs, hnone, h1, h2, or_self, if_false]
    norm_num [fmtFixed, natDigits, natDigitsLE, padLeftZeros, digitChar]
    decide

/-- C2 witness: the amended theorem instantiated at the failing text
`"abc"` with hemisphere `"N"`. -/
theorem claim_C2_amended_witness :
    TrackSense.converter_lat_long [] "N".toList = .ok 0 ∧
    GPSTrack.converter_lat_lon [] "N".toList = ([], false) ∧
    TrackSense.converter_lat_long "abc".toList "N".toList = .error "std::invalid_argument" ∧
    GPSTrack.converter_lat_lon "abc".toList "N".toList = ("0.000000".toList, true) := by
  have h := claim_C2_amended "abc".toList "N".toList
  have h3 := h.2.2 (by decide) (by decide)
  exact ⟨h.1, h.2.1, h3.1, h3.2 (by decide)⟩

/-- C7 amended: publishing serializes the record as the comma-joined line
`time_utc,lat,lon,speed,altitude,satellites,hdop` with 6 fixed decimal
digits for latitude and longitude and 2 — not 1 — for speed, altitude
and hdop (the `setprecision(2)` set before the speed stays in effect for
the remaining numeric fields), and the line is transmitted as a single
datagram. -/
theorem claim_C7_amended :
    ∀ r : TrackSense.GPSData,
      TrackSense.formatar_csv r =
        r.time_utc ++ ',' :: fmtFixed 6 r.lat ++ ',' :: fmtFixed 6 r.lon ++
        ',' :: fmtFixed 2 r.vel ++ ',' :: fmtFixed 2 r.alt ++
        ',' :: intDigits r.sat ++ ',' :: fmtFixed 2 r.hdop ∧
      GPSTrack.send (TrackSense.formatar_csv r) = [TrackSense.formatar_csv r] := by
  intro r
  constructor
  · simp [TrackSense.formatar_csv, TrackSense.OSS.putStr, TrackSense.OSS.putRat,
      TrackSense.OSS.putInt, TrackSense.OSS.setPrec]
  · rfl

/-- C7 counterexample: on the record with altitude 3.14 (other numeric
fields 0) the source serializer prints `…,3.14,0,0.00` while the spec's
claimed 1-digit precision for altitude and hdop would print
`…,3.1,0,0.0`; the two lines differ. -/
theorem claim_C7_counterexample :
    TrackSense.formatar_csv
        { time_utc := "T".toList, lat := 0, lon := 0, vel := 0,
          alt := 314 / 100, sat := 0, hdop := 0 } ≠
      formatar_csv_spec
        { time_utc := "T".toList, lat := 0, lon := 0, vel := 0,
          alt := 314 / 100, sat := 0, hdop := 0 } := by
  have e1 : fmtFixed 6 (0 : ℚ) = "0.000000".toList := by
    norm_num [fmtFixed, natDigits, natDigitsLE, padLeftZeros, digitChar, List.replicate]
  have e2 : fmtFixed 2 (0 : ℚ) = "0.00".toList := by
    norm_num [fmtFixed, natDigits, natDigitsLE, padLeftZeros, digitChar, List.replicate]
  have e5 : fmtFixed 1 (0 : ℚ) = "0.0".toList := by
    norm_num [fmtFixed, natDigits, natDigitsLE, padLeftZeros, digitChar, List.replicate]
  have e3 : fmtFixed 2 (314 / 100 : ℚ) = "3.14".toList := by
    simp [fmtFixed, round_eq]
    norm_num [natDigits, natDigitsLE, padLeftZeros, digitChar, Int.floor_eq_iff]
  have e4 : fmtFixed 1 (314 / 100 : ℚ) = "3.1".toList := by
    simp [fmtFixed, round_eq]
    norm_num [natDigits, natDigitsLE, padLeftZeros, digitChar, Int.floor_eq_iff]
  simp only [TrackSense.formatar_csv, formatar_csv_spec, TrackSense.OSS.putStr,
    TrackSense.OSS.putRat, TrackSense.OSS.putInt, TrackSense.OSS.setPrec,
    e1, e2, e3, e4, e5]
  decide

theorem dval_digitChar (d : Nat) (h : d < 10) : dval (digitChar d) = d := by
  interval_cases d <;> rfl

theorem isDigitB_digitChar (d : Nat) (h : d < 10) : isDigitB (digitChar d) = true := by
  interval_cases d <;> rfl

theorem isDigitB_ne_minus (c : Char) (h : isDigitB c = true) : ¬(c = '-') := by
  intro hc
  rw [hc] at h
  exact absurd h (by decide)

theorem isDigitB_ne_plus (c : Char) (h : isDigitB c = true) : ¬(c = '+') := by
  intro hc
  rw [hc] at h
  exact absurd h (by decide)

theorem natDigitsLE_digits : ∀ f n, ∀ d ∈ natDigitsLE f n, d < 10 := by
  intro f
  induction f with
  | zero => intro n d hd; simp [natDigitsLE] at hd
  | succ f ih =>
    intro n d hd
    unfold natDigitsLE at hd
    split at hd
    · simp at hd
    · rcases List.mem_cons.1 hd with h | h
      · rw [h]; exact Nat.mod_lt _ (by norm_num)
      · exact ih _ _ h

theorem natDigitsLE_val : ∀ f n, n ≤ f → valLE (natDigitsLE f n) = n := by
  intro f
  induction f with
  | zero => intro n hn; interval_cases n; rfl
  | succ f ih =>
    intro n hn
    unfold natDigitsLE
    split
    · rename_i h; rw [h]; rfl
    · rename_i h
      have hle : n / 10 ≤ f := by
        have := Nat.div_lt_self (Nat.pos_of_ne_zero h) (by norm_num : 1 < 10)
        omega
      rw [valLE, ih _ hle]
      omega

theorem natDigitsLE_length : ∀ f n k, n < 10 ^ k → (natDigitsLE f n).length ≤ k := by
  intro f
  induction f with
  | zero => intro n k _; simp [natDigitsLE]
  | succ f ih =>
    intro n k hk
    unfold natDigitsLE
    split
    · simp
    · rename_i hn
      have hk1 : k ≠ 0 := by
        intro h0
        rw [h0, pow_zero] at hk
        omega
      have hdiv : n / 10 < 10 ^ (k - 1) := by
        rw [Nat.div_lt_iff_lt_mul (by norm_num)]
        calc n < 10 ^ k := hk
        _ = 10 ^ (k - 1) * 10 := by
          rw [← pow_succ]
          congr 1
          omega
      have := ih (n / 10) (k - 1) hdiv
      simp only [List.length_cons]
      omega

theorem digitsVal_foldl :
    ∀ (l : Str) (a : Nat),
      l.foldl (fun x c => 10 * x + dval c) a = a * 10 ^ l.length + digitsVal l := by
  intro l
  induction l with
  | nil => intro a; simp [digitsVal]
  | cons c cs ih =>
    intro a
    have h1 : digitsVal (c :: cs) = dval c * 10 ^ cs.length + digitsVal cs := by
      unfold digitsVal
      rw [List.foldl_cons, ih]
      norm_num
      rfl
    rw [List.foldl_cons, ih (10 * a + dval c), h1, List.length_cons]
    ring

theorem digitsVal_append (a b : Str) :
    digitsVal (a ++ b) = digitsVal a * 10 ^ b.length + digitsVal b := by
  unfold digitsVal
  rw [List.foldl_append]
  exact digitsVal_foldl b _

theorem digitsVal_cons (c : Char) (l : Str) :
    digitsVal (c :: l) = dval c * 10 ^ l.length + digitsVal l := by
  have h := digitsVal_append [c] l
  simpa [digitsVal] using h

theorem digitsVal_replicate_zero (k : Nat) : digitsVal (List.replicate k '0') = 0 := by
  induction k with
  | zero => rfl
  | succ k ih =>
    rw [List.replicate_succ, digitsVal_cons, ih]
    simp [dval]

theorem digitsVal_padLeftZeros (w : Nat) (l : Str) :
    digitsVal (padLeftZeros w l) = digitsVal l := by
  rw [padLeftZeros, digitsVal_append, digitsVal_replicate_zero]
  simp

theorem digitsVal_rev_map :
    ∀ ds : List Nat, (∀ d ∈ ds, d < 10) →
      digitsVal ((ds.map digitChar).reverse) = valLE ds := by
  intro ds
  induction ds with
  | nil => intro _; rfl
  | cons d ds ih =>
    intro h
    rw [List.map_cons, List.reverse_cons, digitsVal_append]
    rw [ih (fun x hx => h x (List.mem_cons_of_mem _ hx))]
    have hd : dval (digitChar d) = d := dval_digitChar d (h d (List.mem_cons_self _ _))
    simp [digitsVal, valLE, hd]
    ring

theorem digitsVal_natDigits (n : Nat) : digitsVal (natDigits n) = n := by
  unfold natDigits
  split
  · rename_i h; rw [h]; rfl
  · rw [digitsVal_rev_map _ (natDigitsLE_digits n n), natDigitsLE_val n n le_rfl]

theorem natDigits_all_digits (n : Nat) : ∀ c ∈ natDigits n, isDigitB c = true := by
  intro c hc
  unfold natDigits at hc
  split at hc
  · rw [List.mem_singleton] at hc
    rw [hc]
    decide
  · rw [List.mem_reverse, List.mem_map] at hc
    obtain ⟨d, hd, hcd⟩ := hc
    rw [← hcd]
    exact isDigitB_digitChar d (natDigitsLE_digits n n d hd)

theorem natDigits_ne_nil (n : Nat) : natDigits n ≠ [] := by
  unfold natDigits
  split
  · simp
  · rename_i h
    obtain ⟨m, rfl⟩ := Nat.exists_eq_succ_of_ne_zero h
    simp [natDigitsLE]

theorem natDigits_length_le (n k : Nat) (hk : 1 ≤ k) (h : n < 10 ^ k) :
    (natDigits n).length ≤ k := by
  unfold natDigits
  split
  · simpa using hk
  · rw [List.length_reverse, List.length_map]
    exact natDigitsLE_length n n k h

theorem padLeftZeros_all_digits (w : Nat) (l : Str)
    (h : ∀ c ∈ l, isDigitB c = true) :
    ∀ c ∈ padLeftZeros w l, isDigitB c = true := by
  intro c hc
  rcases padLeftZeros_mem w l c hc with h0 | h0
  · rw [h0]; decide
  · exact h c h0

theorem padLeftZeros_ne_nil (w : Nat) (l : Str) (h : l ≠ []) :
    padLeftZeros w l ≠ [] := by
  rw [padLeftZeros]
  intro hh
  rcases List.append_eq_nil.1 hh with ⟨_, h2⟩
  exact h h2

theorem parseDigits_append :
    ∀ (l r : Str), (∀ c ∈ l, isDigitB c = true) →
      (∀ c rs, r = c :: rs → isDigitB c = false) →
      parseDigits (l ++ r) = (digitsVal l, l.length, r) := by
  intro l
  induction l with
  | nil =>
    intro r _ hr
    cases r with
    | nil => rfl
    | cons c rs =>
      simp [parseDigits, hr c rs rfl, digitsVal]
  | cons c cs ih =>
    intro r hl hr
    have hc : isDigitB c = true := hl c (List.mem_cons_self _ _)
    simp only [List.cons_append, parseDigits, hc, if_true, List.append_eq]
    rw [ih r (fun x hx => hl x (List.mem_cons_of_mem _ hx)) hr]
    rw [digitsVal_cons]
    simp

theorem stodCore_digits_frac (I F : Str) (hI : I ≠ [])
    (hId : ∀ c ∈ I, isDigitB c = true) (hFd : ∀ c ∈ F, isDigitB c = true) :
    stodCore (I ++ '.' :: F) =
      some ((digitsVal I : ℚ) + (digitsVal F : ℚ) / 10 ^ F.length) := by
  have hpd : parseDigits (I ++ '.' :: F) = (digitsVal I, I.length, '.' :: F) := by
    refine parseDigits_append I ('.' :: F) hId ?_
    intro x xs hx
    injection hx with h1 _
    rw [← h1]
    decide
  have hpdF : parseDigits F = (digitsVal F, F.length, []) := by
    have h := parseDigits_append F [] hFd (by intro x xs hx; cases hx)
    simpa using h
  have hIlen : I.length ≠ 0 := by
    intro h0
    exact hI (List.length_eq_zero.1 h0)
  unfold stodCore
  rw [hpd]
  dsimp only
  rw [if_pos rfl, hpdF]
  simp [hIlen]

theorem stodQ_of_digit_head (c : Char) (t : Str) (hc : isDigitB c = true) :
    stodQ (c :: t) = stodCore (c :: t) := by
  have h1 : stodQ (c :: t) =
      if c = '-' then (stodCore t).map (fun v => -v)
      else if c = '+' then stodCore t
      else stodCore (c :: t) := rfl
  rw [h1, if_neg (isDigitB_ne_minus c hc), if_neg (isDigitB_ne_plus c hc)]

theorem fmtFixed_nonneg (p : Nat) (hp : p ≠ 0) (q : ℚ) (hq : 0 ≤ q) :
    fmtFixed p q =
      natDigits ((round (q * (10 : ℚ) ^ p)).natAbs / 10 ^ p) ++
        '.' :: padLeftZeros p (natDigits ((round (q * (10 : ℚ) ^ p)).natAbs % 10 ^ p)) := by
  have hn : 0 ≤ round (q * (10 : ℚ) ^ p) := by
    rw [round_eq]
    refine Int.floor_nonneg.2 ?_
    positivity
  simp [fmtFixed, hp, not_lt.2 hn]

theorem encG_cast (x : ℚ) : ((encG x : ℚ)) = ((⌊|x|⌋ : ℤ) : ℚ) := by
  have h := Int.toNat_of_nonneg (Int.floor_nonneg.2 (abs_nonneg x))
  rw [encG]
  exact_mod_cast congrArg (fun z : ℤ => (z : ℚ)) h

theorem encMin_nonneg (x : ℚ) : 0 ≤ encMin x := by
  rw [encMin, encG_cast]
  have h1 : ((⌊|x|⌋ : ℤ) : ℚ) ≤ |x| := Int.floor_le _
  nlinarith

theorem encMin_lt60 (x : ℚ) : encMin x < 60 := by
  rw [encMin, encG_cast]
  have h1 : |x| < (⌊|x|⌋ : ℚ) + 1 := Int.lt_floor_add_one _
  nlinarith

theorem encA_round_nonneg (x : ℚ) : 0 ≤ round (encMin x * (10 : ℚ) ^ 4) := by
  rw [round_eq]
  refine Int.floor_nonneg.2 ?_
  have := encMin_nonneg x
  positivity

theorem encA_cast (x : ℚ) :
    ((encA x : ℚ)) = ((round (encMin x * (10 : ℚ) ^ 4) : ℤ) : ℚ) := by
  rw [encA, Int.cast_natAbs]
  exact congrArg (fun z : ℤ => ((z : ℚ))) (abs_of_nonneg (encA_round_nonneg x))

theorem encA_le (x : ℚ) : encA x ≤ 600000 := by
  have hm := encMin_lt60 x
  have hm0 := encMin_nonneg x
  have habs := abs_sub_round (encMin x * (10 : ℚ) ^ 4)
  have hnn := encA_round_nonneg x
  set R : ℤ := round (encMin x * (10 : ℚ) ^ 4) with hR
  have h2 : encMin x * (10 : ℚ) ^ 4 < 600000 := by nlinarith
  have h3 : ((R : ℚ)) ≤ encMin x * (10 : ℚ) ^ 4 + 1 / 2 := by
    have h4 := abs_le.1 habs
    linarith [h4.1]
  have h1 : ((R : ℚ)) < 600001 := by linarith
  have h4 : R < 600001 := by exact_mod_cast h1
  have h5 : ((encA x : ℤ)) = R := Int.natAbs_of_nonneg hnn
  omega

theorem encA_err (x : ℚ) : |(encA x : ℚ) / (10 : ℚ) ^ 4 - encMin x| ≤ 1 / 20000 := by
  have habs := abs_sub_round (encMin x * (10 : ℚ) ^ 4)
  rw [encA_cast]
  set R : ℤ := round (encMin x * (10 : ℚ) ^ 4) with hR
  have h : ((R : ℚ)) / (10 : ℚ) ^ 4 - encMin x =
      -(encMin x * (10 : ℚ) ^ 4 - (R : ℚ)) / (10 : ℚ) ^ 4 := by
    ring
  rw [h, abs_div, abs_neg]
  have h10 : |((10 : ℚ)) ^ 4| = (10 : ℚ) ^ 4 := by norm_num
  rw [h10, div_le_iff (by norm_num : (0 : ℚ) < (10 : ℚ) ^ 4)]
  calc |encMin x * (10 : ℚ) ^ 4 - ((R : ℚ))| ≤ 1 / 2 := habs
  _ ≤ 1 / 20000 * (10 : ℚ) ^ 4 := by norm_num

theorem encA_div_lt (x : ℚ) : encA x / 10 ^ 4 < 100 := by
  have h := encA_le x
  omega

theorem encA_mod_lt (x : ℚ) : encA x % 10 ^ 4 < 10 ^ 4 :=
  Nat.mod_lt _ (by norm_num)

theorem padLeftZeros_dot (A B : Str) (hB : B.length = 4) :
    padLeftZeros 7 (A ++ '.' :: B) = padLeftZeros 2 A ++ '.' :: B := by
  have hlen : (A ++ '.' :: B).length = A.length + 5 := by
    simp [List.length_append, hB]
  rw [padLeftZeros, padLeftZeros, hlen, List.append_assoc]
  have h7 : 7 - (A.length + 5) = 2 - A.length := by omega
  rw [h7]

theorem enc_text (x : ℚ) (is_lat : Bool) :
    (GPSSim.converter_graus_para_nmea x is_lat).1 =
      (padLeftZeros (if is_lat then 2 else 3) (natDigits (encG x)) ++
        padLeftZeros 2 (natDigits (encA x / 10 ^ 4))) ++
      '.' :: padLeftZeros 4 (natDigits (encA x % 10 ^ 4)) := by
  unfold GPSSim.converter_graus_para_nmea
  dsimp only
  rw [show (|x| - (((⌊|x|⌋).toNat : ℕ) : ℚ)) * 60 = encMin x from rfl]
  rw [show natDigits (⌊|x|⌋).toNat = natDigits (encG x) from rfl]
  rw [fmtFixed_nonneg 4 (by norm_num) _ (encMin_nonneg x)]
  rw [show (round (encMin x * (10 : ℚ) ^ 4)).natAbs = encA x from rfl]
  rw [padLeftZeros_dot _ _
    (padLeftZeros_length 4 _ (natDigits_length_le _ 4 (by norm_num) (encA_mod_lt x)))]
  rw [List.append_assoc]

theorem stodQ_enc (x : ℚ) (is_lat : Bool) :
    stodQ (GPSSim.converter_graus_para_nmea x is_lat).1 =
      some ((encG x : ℚ) * 100 + (encA x : ℚ) / (10 : ℚ) ^ 4) := by
  rw [enc_text]
  have hId : ∀ c ∈ padLeftZeros (if is_lat then 2 else 3) (natDigits (encG x)) ++
      padLeftZeros 2 (natDigits (encA x / 10 ^ 4)), isDigitB c = true := by
    intro c hc
    rcases List.mem_append.1 hc with h | h
    · exact padLeftZeros_all_digits _ _ (natDigits_all_digits _) c h
    · exact padLeftZeros_all_digits _ _ (natDigits_all_digits _) c h
  have hFd : ∀ c ∈ padLeftZeros 4 (natDigits (encA x % 10 ^ 4)), isDigitB c = true :=
    padLeftZeros_all_digits _ _ (natDigits_all_digits _)
  have hIne : padLeftZeros (if is_lat then 2 else 3) (natDigits (encG x)) ++
      padLeftZeros 2 (natDigits (encA x / 10 ^ 4)) ≠ [] := by
    intro h
    rcases List.append_eq_nil.1 h with ⟨_, h2⟩
    exact padLeftZeros_ne_nil 2 _ (natDigits_ne_nil _) h2
  obtain ⟨c, I0, hcI⟩ : ∃ c I0, padLeftZeros (if is_lat then 2 else 3) (natDigits (encG x)) ++
      padLeftZeros 2 (natDigits (encA x / 10 ^ 4)) = c :: I0 := by
    cases h : padLeftZeros (if is_lat then 2 else 3) (natDigits (encG x)) ++
      padLeftZeros 2 (natDigits (encA x / 10 ^ 4)) with
    | nil => exact absurd h hIne
    | cons c I0 => exact ⟨c, I0, rfl⟩
  have hc : isDigitB c = true := hId c (by rw [hcI]; exact List.mem_cons_self _ _)
  rw [hcI, List.cons_append, stodQ_of_digit_head c _ hc, ← List.cons_append, ← hcI]
  rw [stodCore_digits_frac _ _ hIne hId hFd]
  have hvI : digitsVal (padLeftZeros (if is_lat then 2 else 3) (natDigits (encG x)) ++
      padLeftZeros 2 (natDigits (encA x / 10 ^ 4))) = encG x * 100 + encA x / 10 ^ 4 := by
    rw [digitsVal_append, digitsVal_padLeftZeros, digitsVal_padLeftZeros,
      digitsVal_natDigits, digitsVal_natDigits,
      padLeftZeros_length 2 _ (natDigits_length_le _ 2 (by norm_num)
        (by have := encA_div_lt x; omega))]
    norm_num
  have hvF : digitsVal (padLeftZeros 4 (natDigits (encA x % 10 ^ 4))) = encA x % 10 ^ 4 := by
    rw [digitsVal_padLeftZeros, digitsVal_natDigits]
  have hlF : (padLeftZeros 4 (natDigits (encA x % 10 ^ 4))).length = 4 :=
    padLeftZeros_length 4 _ (natDigits_length_le _ 4 (by norm_num) (encA_mod_lt x))
  rw [hvI, hvF, hlF]
  congr 1
  have hAn : encA x = 10 ^ 4 * (encA x / 10 ^ 4) + encA x % 10 ^ 4 :=
    (Nat.div_add_mod (encA x) (10 ^ 4)).symm
  have hA : ((encA x : ℚ)) = (10 : ℚ) ^ 4 * ((encA x / 10 ^ 4 : ℕ) : ℚ) +
      ((encA x % 10 ^ 4 : ℕ) : ℚ) := by
    exact_mod_cast congrArg (fun n : ℕ => ((n : ℚ))) hAn
  push_cast
  push_cast at hA
  rw [hA]
  field_simp
  ring

theorem converter_ok (t h : Str) (g : Nat) (mr : ℚ)
    (ht : t ≠ []) (hs : stodQ t = some ((g : ℚ) * 100 + mr))
    (h0 : 0 ≤ mr) (h60 : mr ≤ 60) :
    TrackSense.converter_lat_long t h =
      .ok (((g : ℚ) + mr / 60) * (if h = ['S'] ∨ h = ['W'] then -1 else 1)) := by
  unfold TrackSense.converter_lat_long
  rw [if_neg ht, hs]
  dsimp only
  have hfloor : ⌊((g : ℚ) * 100 + mr) / 100⌋ = (g : ℤ) := by
    have heq : ((g : ℚ) * 100 + mr) / 100 = ((g : ℤ) : ℚ) + mr / 100 := by
      push_cast
      ring
    rw [heq, Int.floor_int_add]
    have h1 : ⌊mr / 100⌋ = 0 := by
      rw [Int.floor_eq_zero_iff]
      refine Set.mem_Ico.2 ⟨by positivity, ?_⟩
      rw [div_lt_one (by norm_num : (0 : ℚ) < 100)]
      linarith
    rw [h1, add_zero]
  rw [hfloor]
  congr 1
  have hgz : (((g : ℤ) : ℚ)) = ((g : ℚ)) := by push_cast; rfl
  rw [hgz]
  congr 1
  ring

/-- C6: for every decimal-degrees value in the latitude range (latitude
encoding) or longitude range (longitude encoding), decoding the encoded
sexagesimal text together with its hemisphere character recovers the
value to within 1e-4 degrees (the only loss is the rounding of minutes
to four decimal places, at most 5e-5 minutes, i.e. well below 1e-4
degrees). -/
theorem claim_C6_roundtrip :
    ∀ (x : ℚ) (is_lat : Bool),
      (if is_lat then -90 ≤ x ∧ x ≤ 90 else -180 ≤ x ∧ x ≤ 180) →
      ∃ d : ℚ,
        TrackSense.converter_lat_long
            (GPSSim.converter_graus_para_nmea x is_lat).1
            [(GPSSim.converter_graus_para_nmea x is_lat).2] = .ok d ∧
        |d - x| ≤ 1 / 10000 := by
  intro x is_lat _hrange
  have hne : (GPSSim.converter_graus_para_nmea x is_lat).1 ≠ [] := by
    rw [enc_text]
    intro h
    rcases List.append_eq_nil.1 h with ⟨_, h2⟩
    cases h2
  have hmr0 : 0 ≤ (encA x : ℚ) / (10 : ℚ) ^ 4 := by positivity
  have hmr60 : (encA x : ℚ) / (10 : ℚ) ^ 4 ≤ 60 := by
    have h1 : ((encA x : ℚ)) ≤ 600000 := by exact_mod_cast encA_le x
    rw [div_le_iff (by norm_num : (0 : ℚ) < (10 : ℚ) ^ 4)]
    linarith
  have hd := converter_ok _ [(GPSSim.converter_graus_para_nmea x is_lat).2]
    (encG x) ((encA x : ℚ) / (10 : ℚ) ^ 4) hne (stodQ_enc x is_lat) hmr0 hmr60
  refine ⟨_, hd, ?_⟩
  have herr := encA_err x
  have hdiv60 : encMin x / 60 = |x| - (encG x : ℚ) := by
    rw [encMin]
    field_simp
  rcases le_or_lt 0 x with hx | hx
  · have hhem : (GPSSim.converter_graus_para_nmea x is_lat).2 =
        if is_lat then 'N' else 'E' := by
      unfold GPSSim.converter_graus_para_nmea
      cases is_lat <;> simp [hx]
    have hcond : ¬([(GPSSim.converter_graus_para_nmea x is_lat).2] = ['S'] ∨
        [(GPSSim.converter_graus_para_nmea x is_lat).2] = ['W']) := by
      rw [hhem]
      cases is_lat <;> decide
    rw [if_neg hcond, mul_one]
    have hxx : x = (encG x : ℚ) + encMin x / 60 := by
      have h1 : encMin x / 60 = x - (encG x : ℚ) := by
        rw [hdiv60, abs_of_nonneg hx]
      linarith
    have hsimp : (encG x : ℚ) + ((encA x : ℚ) / (10 : ℚ) ^ 4) / 60 - x =
        ((encA x : ℚ) / (10 : ℚ) ^ 4 - encMin x) / 60 := by
      linear_combination -hxx
    rw [hsimp, abs_div]
    have h60 : |(60 : ℚ)| = 60 := by norm_num
    rw [h60]
    rw [div_le_iff (by norm_num : (0 : ℚ) < 60)]
    calc |(encA x : ℚ) / (10 : ℚ) ^ 4 - encMin x| ≤ 1 / 20000 := herr
    _ ≤ 1 / 10000 * 60 := by norm_num
  · have hhem : (GPSSim.converter_graus_para_nmea x is_lat).2 =
        if is_lat then 'S' else 'W' := by
      unfold GPSSim.converter_graus_para_nmea
      cases is_lat <;> simp [not_le.2 hx]
    have hcond : ([(GPSSim.converter_graus_para_nmea x is_lat).2] = ['S'] ∨
        [(GPSSim.converter_graus_para_nmea x is_lat).2] = ['W']) := by
      rw [hhem]
      cases is_lat
      · right; decide
      · left; decide
    rw [if_pos hcond]
    have hxx : x = -((encG x : ℚ) + encMin x / 60) := by
      have h1 : encMin x / 60 = -x - (encG x : ℚ) := by
        rw [hdiv60, abs_of_neg hx]
      linarith
    have hsimp : ((encG x : ℚ) + ((encA x : ℚ) / (10 : ℚ) ^ 4) / 60) * (-1) - x =
        (encMin x - (encA x : ℚ) / (10 : ℚ) ^ 4) / 60 := by
      linear_combination -hxx
    rw [hsimp, abs_div]
    have h60 : |(60 : ℚ)| = 60 := by norm_num
    rw [h60]
    rw [div_le_iff (by norm_num : (0 : ℚ) < 60)]
    calc |encMin x - (encA x : ℚ) / (10 : ℚ) ^ 4| =
        |(encA x : ℚ) / (10 : ℚ) ^ 4 - encMin x| := abs_sub_comm _ _
    _ ≤ 1 / 20000 := herr
    _ ≤ 1 / 10000 * 60 := by norm_num

/-- C6 witness: the round-trip theorem instantiated at latitude 1/2
(encoded "0030.0000" with hemisphere N). -/
theorem claim_C6_roundtrip_witness :
    ∃ d : ℚ,
      TrackSense.converter_lat_long
          (GPSSim.converter_graus_para_nmea (1 / 2) true).1
          [(GPSSim.converter_graus_para_nmea (1 / 2) true).2] = .ok d ∧
      |d - 1 / 2| ≤ 1 / 10000 :=
  claim_C6_roundtrip (1 / 2) true (by norm_num)
